import Mathlib

/-!
Verification of the Document-ChatBot repository (`src/DocumentChatbot.py`,
`app.py`) against its natural-language specification.

The Python class `DocumentChatbot` is shallowly embedded here.  Strings are
modelled as `List Char` (`Str`), so Python's `in` substring test, `str.lower`,
and the `re` pattern of `validate_email` become executable Lean functions over
character lists.  External collaborators (the PDF loader + text splitter, the
`phonenumbers` library, `dateutil.parser.parse`, the Chroma vector store and
the LLM behind the `ConversationalRetrievalChain`) are modelled as oracle
parameters: the embedded code is exactly the control flow of the Python
source, with each external call replaced by the oracle's answer.

Notes on fidelity to the source:
* `load_document` catches every exception and calls `sys.exit(1)`; this is
  modelled by the `LoadOutcome.exited` constructor carrying the exit code and
  the ingestion error that was printed before exiting.
* `process_query` wraps its whole body in `try/except`; an exception raised
  by the missing `qa_chain` attribute (no document loaded) or by the chain
  invocation itself is caught and turned into the fixed apology string, and
  the `conversation_history.append` on the success path is only reached after
  the chain call returned normally.
* `validate_email` uses `re.match` with the pattern `^[\w\.-]+@[\w\.-]+\.\w+$`.
  Python's `$` matches at the end of the string or just before a single
  trailing newline, so the matcher below strips one trailing newline before
  running the anchored core pattern.  `\w` is modelled over ASCII as
  letter/digit/underscore.
-/

namespace DocChatbot

/-- Strings are modelled as lists of characters. -/
abbrev Str := List Char

/-- A text chunk produced by the PDF loader + `CharacterTextSplitter`,
with its page-level provenance metadata. -/
structure Chunk where
  text : Str
  page : Nat
deriving DecidableEq

/-- The Chroma vector store built by `Chroma.from_documents`: the embedded
chunks of exactly one loaded document, plus the timestamped
`persist_directory` it was created with. -/
structure RetrievalIndex where
  chunks : List Chunk
  persistDir : Str
deriving DecidableEq

/-- The completed intake record assigned to `self.user_info`. -/
structure UserInfo where
  name : Str
  email : Str
  phone : Str
  appointment_date : Str
deriving DecidableEq

/-- A calendar date as produced by `dateutil.parser.parse` (a
`datetime.datetime`; Python guarantees `1 <= year <= 9999`). -/
structure CalDate where
  year : Nat
  month : Nat
  day : Nat
deriving DecidableEq

/-- The mutable attributes of a `DocumentChatbot` instance.
`vectorstore` and `qa_chain` are `none` before the first successful
`load_document` (the Python attributes simply do not exist yet; accessing
them raises `AttributeError`).  The `qa_chain` retrieves from the
vector store it was built over, so it is modelled by that index. -/
structure ChatbotState where
  conversation_history : List (Str × Str)
  user_info : Option UserInfo
  vectorstore : Option RetrievalIndex
  qa_chain : Option RetrievalIndex
deriving DecidableEq

/-- The state right after `__init__` (embedding initialization succeeded). -/
def initState : ChatbotState :=
  { conversation_history := [], user_info := none,
    vectorstore := none, qa_chain := none }

/-! ### Conversation Router (`process_query`, lines 190-196) -/

/-- Python `str.lower()` restricted to the per-character case mapping. -/
def lowerStr (s : Str) : Str := s.map Char.toLower

/-- Python's substring test `pat in s`. -/
def isSubstring (pat : Str) : Str → Bool
  | [] => pat.isEmpty
  | c :: rest => pat.isPrefixOf (c :: rest) || isSubstring pat rest

/-- The trigger keyword list of `process_query`:
`["call me", "contact me", "schedule", "appointment"]`. -/
def triggers : List Str :=
  [("call me").data, ("contact me").data, ("schedule").data,
   ("appointment").data]

/-- The test `any(keyword in query.lower() for keyword in [...])`. -/
def routesToScheduling (q : Str) : Bool :=
  triggers.any (fun k => isSubstring k (lowerStr q))

/-- The routing decision of the Conversation Router. -/
inductive RouteDecision
  | Scheduling
  | DocumentQuestion
deriving DecidableEq

/-- The router: the `if`/`else` split at the top of `process_query`. -/
def route (q : Str) : RouteDecision :=
  if routesToScheduling q then RouteDecision.Scheduling
  else RouteDecision.DocumentQuestion

/-! ### `validate_email` (lines 90-101)

the `re.match` test against `^[\w\.-]+@[\w\.-]+\.\w+$`, over ASCII. -/

/-- Python regex `\w` over ASCII: letter, digit or underscore. -/
def wordChar (c : Char) : Bool := c.isAlphanum || c == '_'

/-- The character class `[\w\.-]`. -/
def emailChar (c : Char) : Bool := wordChar c || c == '.' || c == '-'

/-- Matcher for the part after the `@`: `[\w\.-]+\.\w+` anchored on both
sides.  Scanning from the right, the maximal word-character suffix must be
nonempty, be preceded by a literal dot, and leave a nonempty prefix; all
characters must come from `[\w\.-]` (the regex classes involved are subsets
of it). -/
def domCheck (t : Str) : Bool :=
  t.all emailChar &&
    (match (t.reverse).dropWhile wordChar with
     | [] => false
     | a :: m =>
       (a == '.') && !m.isEmpty && !((t.reverse).takeWhile wordChar).isEmpty)

/-- Matcher for `^[\w\.-]+@[\w\.-]+\.\w+` anchored at both ends of its
argument: the maximal `[\w\.-]` prefix must be nonempty and be followed by
a literal `@`, and the remainder must match `domCheck`.  (`@` is not in
`[\w\.-]`, so the maximal prefix is the only possible split.) -/
def emailCore (s : Str) : Bool :=
  match s.dropWhile emailChar with
  | [] => false
  | a :: t => !((s.takeWhile emailChar).isEmpty) && (a == '@') && domCheck t

/-- Python's `$` matches at the end of the string or just before a single
trailing newline; since no regex class here matches `'\n'`, `re.match` with
this pattern accepts a string iff the core pattern fully matches the string
with one trailing newline removed. -/
def stripNl : Str → Str
  | [] => []
  | c :: rest => if rest.isEmpty && (c == '\n') then [] else c :: stripNl rest

/-- Function `DocumentChatbot.validate_email`. -/
def validate_email (email : Str) : Bool := emailCore (stripNl email)

/-- The language the spec describes for the email validator: strings of the
form `local-part@domain.tld` where local part and domain consist of word
characters, dots and hyphens (both nonempty) and the domain ends in a dot
followed by a nonempty run of word characters. -/
def specEmailForm (s : Str) : Prop :=
  ∃ l m w : Str,
    s = l ++ '@' :: (m ++ '.' :: w) ∧ l ≠ [] ∧ m ≠ [] ∧ w ≠ [] ∧
    (∀ c ∈ l, emailChar c = true) ∧ (∀ c ∈ m, emailChar c = true) ∧
    (∀ c ∈ w, wordChar c = true)

/-! ### `parse_date` (lines 119-133)

`dateutil.parser.parse(date_string, fuzzy=True)` is the oracle
`duParse : Str → Option CalDate` (`none` models the exception swallowed by
the bare `except`); `strftime("%Y-%m-%d")` zero-pads the year to four digits
and month/day to two (datetime years never exceed 9999). -/

/-- Four-digit zero-padded decimal rendering (`%Y` for years up to 9999). -/
def pad4 (n : Nat) : Str :=
  [Nat.digitChar (n / 1000 % 10), Nat.digitChar (n / 100 % 10),
   Nat.digitChar (n / 10 % 10), Nat.digitChar (n % 10)]

/-- Two-digit zero-padded decimal rendering (`%m`, `%d`). -/
def pad2 (n : Nat) : Str :=
  [Nat.digitChar (n / 10 % 10), Nat.digitChar (n % 10)]

/-- The call `parsed_date.strftime("%Y-%m-%d")`. -/
def formatYMD (d : CalDate) : Str :=
  pad4 d.year ++ ('-' :: pad2 d.month) ++ ('-' :: pad2 d.day)

/-- Function `DocumentChatbot.parse_date`, with `dateutil` as the oracle `duParse`. -/
def parse_date (duParse : Str → Option CalDate) (date_string : Str) :
    Option Str :=
  match duParse date_string with
  | some d => some (formatYMD d)
  | none => none

/-- Shape test for a literal `YYYY-MM-DD` string: ten characters, digits in
the year/month/day positions, dashes at positions 4 and 7. -/
def isYYYYMMDD (s : Str) : Bool :=
  match s with
  | [y1, y2, y3, y4, d1, m1, m2, d2, a1, a2] =>
    y1.isDigit && y2.isDigit && y3.isDigit && y4.isDigit && (d1 == '-') &&
      m1.isDigit && m2.isDigit && (d2 == '-') && a1.isDigit && a2.isDigit
  | _ => false

/-! ### `collect_user_info` (lines 135-178)

Console input is modelled as a finite list of lines; exhausting it models
`input()` raising `EOFError`, which the outer `try/except` of
`collect_user_info` turns into `return None`.  `validate_phone` delegates
entirely to the `phonenumbers` library (region "NP"), so it is the oracle
`validPhone`. -/

/-- One retry-until-valid loop (`while True: ... if valid: break`): consume
lines until the validator accepts one; EOF yields `none`. -/
def askUntil (valid : Str → Bool) : List Str → Option (Str × List Str)
  | [] => none
  | s :: rest => if valid s then some (s, rest) else askUntil valid rest

/-- The date loop stores the parsed value, not the raw line:
`date = self.parse_date(date_str); if date: break`. -/
def askUntilSome (parse : Str → Option Str) : List Str → Option (Str × List Str)
  | [] => none
  | s :: rest =>
    match parse s with
    | some v => some (v, rest)
    | none => askUntilSome parse rest

/-- Function `DocumentChatbot.collect_user_info`: name (unvalidated), then the three
retry loops for email, phone and date, assembling `self.user_info` only
after all four succeed. -/
def collect_user_info (validPhone : Str → Bool)
    (duParse : Str → Option CalDate) (inputs : List Str) : Option UserInfo :=
  match inputs with
  | [] => none
  | name :: r1 =>
    match askUntil validate_email r1 with
    | none => none
    | some (email, r2) =>
      match askUntil validPhone r2 with
      | none => none
      | some (phone, r3) =>
        match askUntilSome (parse_date duParse) r3 with
        | none => none
        | some (date, _) =>
          some { name := name, email := email, phone := phone,
                 appointment_date := date }

/-! ### `load_document` (lines 37-88) -/

/-- The ingestion error printed before `sys.exit(1)`:
`notFound` for the `FileNotFoundError` branch, `emptyDocument` for the
`ValueError("No text content extracted from PDF")`, `ingestFailure` for any
other exception out of the Chroma / LLM / chain construction. -/
inductive IngestError
  | notFound
  | emptyDocument
  | ingestFailure
deriving DecidableEq

/-- The observable outcome of `load_document`: either the process terminates
via `sys.exit(code)` after printing the error, or the method returns with
the updated instance state. -/
inductive LoadOutcome
  | exited (code : Nat) (err : IngestError)
  | ok (st : ChatbotState)
deriving DecidableEq

/-- The fresh index built by `Chroma.from_documents` for this load:
exactly the chunks extracted from this document, persisted under the
timestamped directory `f"DB/chroma_{datetime.now()}"`. -/
def mkIndex (docs : List Chunk) (now : Str) : RetrievalIndex :=
  { chunks := docs, persistDir := ("DB/chroma_").data ++ now }

/-- Function `DocumentChatbot.load_document`.  Oracles: `fsExists` is
`os.path.exists`; `extract` is `PyPDFLoader(...).load()` followed by
`CharacterTextSplitter(...).split_documents` (the chunk list is a function
of the document alone); `buildOk` says whether the Chroma store / Ollama
LLM / chain construction succeeds; `now` is the `datetime.now()` timestamp
used in the persist directory name. -/
def load_document (fsExists : Str → Bool) (extract : Str → List Chunk)
    (buildOk : Bool) (now : Str) (st : ChatbotState) (pdf_path : Str) :
    LoadOutcome :=
  if fsExists pdf_path = false then
    LoadOutcome.exited 1 IngestError.notFound
  else
    match extract pdf_path with
    | [] => LoadOutcome.exited 1 IngestError.emptyDocument
    | d :: ds =>
      if buildOk = false then LoadOutcome.exited 1 IngestError.ingestFailure
      else
        LoadOutcome.ok
          { st with vectorstore := some (mkIndex (d :: ds) now),
                    qa_chain := some (mkIndex (d :: ds) now) }

/-! ### `process_query` (lines 180-209) -/

/-- The confirmation message of the scheduling branch. -/
def confirmMsg (i : UserInfo) : Str :=
  ("Bot: Thank you, ").data ++ i.name ++
    ("! I\x27ve scheduled a call for ").data ++ i.appointment_date ++
    (". We\x27ll contact you at ").data ++ i.phone ++ (" or ").data ++
    i.email ++ (".").data

/-- The message returned when `collect_user_info` yields `None`. -/
def schedErrMsg : Str :=
  ("Bot: Sorry, there was an error processing your information.").data

/-- The apology returned by the outer `except` of `process_query`. -/
def apologyMsg : Str :=
  ("Bot: I apologize, but I encountered an error processing your request.").data

/-- Function `DocumentChatbot.process_query`.  The oracle `qa` is the
`ConversationalRetrievalChain` call: given the index the chain retrieves
from, the question and the chat history, it returns the answer or fails
(timeout, service error, ...).  Returns the bot response together with the
instance state after the call. -/
def process_query (qa : RetrievalIndex → Str → List (Str × Str) → Except Unit Str)
    (validPhone : Str → Bool) (duParse : Str → Option CalDate)
    (inputs : List Str) (st : ChatbotState) (query : Str) :
    Str × ChatbotState :=
  if routesToScheduling query then
    match collect_user_info validPhone duParse inputs with
    | some info => (confirmMsg info, { st with user_info := some info })
    | none => (schedErrMsg, st)
  else
    match st.qa_chain with
    | none => (apologyMsg, st)
    | some idx =>
      match qa idx query st.conversation_history with
      | Except.ok ans =>
        (ans, { st with
                  conversation_history :=
                    st.conversation_history ++ [(query, ans)] })
      | Except.error _ => (apologyMsg, st)

/-! ### Concrete instances used by the witnesses -/

/-- A one-chunk document index standing for a first loaded document. -/
def wIdx : RetrievalIndex :=
  { chunks := [{ text := ("doc one text").data, page := 0 }],
    persistDir := ("DB/chroma_t0").data }

/-- A session state with a document loaded. -/
def wLoaded : ChatbotState :=
  { conversation_history := [], user_info := none,
    vectorstore := some wIdx, qa_chain := some wIdx }

/-- A QA oracle that always answers. -/
def wQa : RetrievalIndex → Str → List (Str × Str) → Except Unit Str :=
  fun _ _ _ => Except.ok (("ans").data)

/-- A QA oracle that always fails (LLM backend error). -/
def wQaFail : RetrievalIndex → Str → List (Str × Str) → Except Unit Str :=
  fun _ _ _ => Except.error ()

/-- A phone oracle accepting exactly the string "123". -/
def wValidPhone : Str → Bool := fun s => s == ("123").data

/-- A `dateutil` oracle accepting exactly "March 3 2025". -/
def wDuParse : Str → Option CalDate := fun s =>
  if s == ("March 3 2025").data then
    some { year := 2025, month := 3, day := 3 }
  else none

/-- A filesystem oracle on which every path exists. -/
def wFs : Str → Bool := fun _ => true

/-- An extraction oracle producing one chunk whose text is the path. -/
def wExtract : Str → List Chunk := fun p => [{ text := p, page := 0 }]

/-- The state reached by loading "b.pdf" (under `wFs`/`wExtract`, timestamp
"t1") over the already-loaded session `wLoaded`. -/
def wSt2 : ChatbotState :=
  { wLoaded with
      vectorstore := some (mkIndex (wExtract (("b.pdf").data)) (("t1").data)),
      qa_chain := some (mkIndex (wExtract (("b.pdf").data)) (("t1").data)) }

/-- The accepted-with-trailing-newline input refuting the exactness part of
the spec's email-validator description. -/
def cexEmail : Str := ("a.b-c@sub.domain.com").data ++ ['\n']

/-! ## Helper lemmas -/

lemma isSubstring_iff (pat s : Str) : isSubstring pat s = true ↔ pat <:+: s := by
  induction s with
  | nil =>
    simp [isSubstring, List.isEmpty_iff]
  | cons c rest ih =>
    simp only [isSubstring, Bool.or_eq_true, List.isPrefixOf_iff_prefix, ih,
      List.infix_cons_iff]

lemma routesToScheduling_iff (q : Str) :
    routesToScheduling q = true ↔
      (("call me").data <:+: lowerStr q ∨ ("contact me").data <:+: lowerStr q ∨
       ("schedule").data <:+: lowerStr q ∨ ("appointment").data <:+: lowerStr q) := by
  simp [routesToScheduling, triggers, List.any_eq_true, isSubstring_iff]

lemma load_document_ok_iff (fsExists : Str → Bool) (extract : Str → List Chunk)
    (buildOk : Bool) (now : Str) (st : ChatbotState) (pdf_path : Str)
    (st' : ChatbotState) :
    load_document fsExists extract buildOk now st pdf_path = LoadOutcome.ok st' ↔
      (fsExists pdf_path = true ∧ extract pdf_path ≠ [] ∧ buildOk = true ∧
       st' = { st with
                 vectorstore := some (mkIndex (extract pdf_path) now),
                 qa_chain := some (mkIndex (extract pdf_path) now) }) := by
  unfold load_document
  cases hfs : fsExists pdf_path <;> simp [hfs]
  cases hex : extract pdf_path with
  | nil => simp
  | cons d ds =>
    cases hb : buildOk <;> simp [eq_comm]

lemma askUntil_skip (valid : Str → Bool) (bad : List Str) (good : Str)
    (rest : List Str) (hb : ∀ x ∈ bad, valid x = false)
    (hg : valid good = true) :
    askUntil valid (bad ++ good :: rest) = some (good, rest) := by
  induction bad with
  | nil => simp [askUntil, hg]
  | cons b bs ih =>
    have hb0 : valid b = false := hb b (List.mem_cons_self b bs)
    simp [askUntil, hb0, ih (fun x hx => hb x (List.mem_cons_of_mem b hx))]

lemma askUntilSome_skip (parse : Str → Option Str) (bad : List Str)
    (good v : Str) (rest : List Str) (hb : ∀ x ∈ bad, parse x = none)
    (hg : parse good = some v) :
    askUntilSome parse (bad ++ good :: rest) = some (v, rest) := by
  induction bad with
  | nil => simp [askUntilSome, hg]
  | cons b bs ih =>
    have hb0 : parse b = none := hb b (List.mem_cons_self b bs)
    simp [askUntilSome, hb0, ih (fun x hx => hb x (List.mem_cons_of_mem b hx))]

lemma askUntil_valid (valid : Str → Bool) :
    ∀ (inputs : List Str) (s : Str) (rest : List Str),
      askUntil valid inputs = some (s, rest) → valid s = true := by
  intro inputs
  induction inputs with
  | nil => intro s rest h; simp [askUntil] at h
  | cons a as ih =>
    intro s rest h
    cases hv : valid a with
    | true =>
      simp [askUntil, hv] at h
      exact h.1 ▸ hv
    | false =>
      simp [askUntil, hv] at h
      exact ih s rest h

lemma askUntilSome_parsed (parse : Str → Option Str) :
    ∀ (inputs : List Str) (v : Str) (rest : List Str),
      askUntilSome parse inputs = some (v, rest) → ∃ s, parse s = some v := by
  intro inputs
  induction inputs with
  | nil => intro v rest h; simp [askUntilSome] at h
  | cons a as ih =>
    intro v rest h
    cases hv : parse a with
    | some w =>
      simp [askUntilSome, hv] at h
      exact ⟨a, by rw [hv, h.1]⟩
    | none =>
      simp [askUntilSome, hv] at h
      exact ih v rest h

lemma digitChar_mod10_isDigit (n : Nat) :
    (Nat.digitChar (n % 10)).isDigit = true := by
  have h : n % 10 < 10 := Nat.mod_lt _ (by decide)
  exact (by decide : ∀ m : Nat, m < 10 → (Nat.digitChar m).isDigit = true)
    (n % 10) h

lemma wordChar_emailChar {c : Char} (h : wordChar c = true) :
    emailChar c = true := by
  simp [emailChar, h]

lemma takeWhile_append_stop (p : Char → Bool) (l : Str) (a : Char) (r : Str)
    (hl : ∀ c ∈ l, p c = true) (ha : p a = false) :
    (l ++ a :: r).takeWhile p = l ∧ (l ++ a :: r).dropWhile p = a :: r := by
  induction l with
  | nil => simp [List.takeWhile_cons, List.dropWhile_cons, ha]
  | cons c cs ih =>
    have hc : p c = true := hl c (List.mem_cons_self c cs)
    have ih' := ih (fun x hx => hl x (List.mem_cons_of_mem c hx))
    simp [List.takeWhile_cons, List.dropWhile_cons, hc, ih'.1, ih'.2]

lemma domCheck_iff (t : Str) :
    domCheck t = true ↔
      ∃ m w : Str, t = m ++ '.' :: w ∧ m ≠ [] ∧ w ≠ [] ∧
        (∀ c ∈ m, emailChar c = true) ∧ (∀ c ∈ w, wordChar c = true) := by
  constructor
  · intro h
    unfold domCheck at h
    rw [Bool.and_eq_true] at h
    obtain ⟨hall, hm⟩ := h
    rw [List.all_eq_true] at hall
    cases hdw : (t.reverse).dropWhile wordChar with
    | nil => rw [hdw] at hm; simp at hm
    | cons a m' =>
      rw [hdw] at hm
      simp only [Bool.and_eq_true, beq_iff_eq, Bool.not_eq_true',
        List.isEmpty_eq_false, ne_eq] at hm
      obtain ⟨⟨ha, hm'ne⟩, htwne⟩ := hm
      subst ha
      have hsplit : (t.reverse).takeWhile wordChar
          ++ (t.reverse).dropWhile wordChar = t.reverse :=
        List.takeWhile_append_dropWhile wordChar t.reverse
      rw [hdw] at hsplit
      have ht : t = m'.reverse ++ '.' :: ((t.reverse).takeWhile wordChar).reverse := by
        have h2 := congrArg List.reverse hsplit
        simpa [List.reverse_append, List.append_assoc, eq_comm] using h2
      refine ⟨m'.reverse, ((t.reverse).takeWhile wordChar).reverse,
        ht, by simpa using hm'ne, by simpa using htwne, ?_, ?_⟩
      · intro c hc
        apply hall
        rw [ht]
        exact List.mem_append_left _ hc
      · intro c hc
        exact List.mem_takeWhile_imp (List.mem_reverse.mp hc)
  · rintro ⟨m, w, ht, hmne, hwne, hmchars, hwchars⟩
    subst ht
    have hrev : (m ++ '.' :: w).reverse = w.reverse ++ '.' :: m.reverse := by
      simp [List.reverse_append, List.append_assoc]
    have hstop := takeWhile_append_stop wordChar w.reverse '.' m.reverse
      (fun c hc => hwchars c (List.mem_reverse.mp hc)) (by decide)
    unfold domCheck
    rw [hrev, hstop.1, hstop.2]
    simp only [Bool.and_eq_true, List.all_eq_true, beq_self_eq_true, true_and,
      Bool.not_eq_true', List.isEmpty_eq_false]
    refine ⟨?_, ⟨by simpa using hmne, by simpa using hwne⟩⟩
    intro c hc
    rcases List.mem_append.mp hc with hcm | hcw
    · exact hmchars c hcm
    · rcases List.mem_cons.mp hcw with hdot | hcw'
      · subst hdot; decide
      · exact wordChar_emailChar (hwchars c hcw')

lemma emailCore_iff (s : Str) : emailCore s = true ↔ specEmailForm s := by
  constructor
  · intro h
    unfold emailCore at h
    cases hdw : s.dropWhile emailChar with
    | nil => rw [hdw] at h; simp at h
    | cons a t =>
      rw [hdw] at h
      simp only [Bool.and_eq_true, Bool.not_eq_true',
        List.isEmpty_eq_false, beq_iff_eq] at h
      obtain ⟨⟨htwne, ha⟩, hdom⟩ := h
      subst ha
      obtain ⟨m, w, htmw, hmne, hwne, hmchars, hwchars⟩ :=
        (domCheck_iff t).mp hdom
      have hsplit : s.takeWhile emailChar ++ s.dropWhile emailChar = s :=
        List.takeWhile_append_dropWhile emailChar s
      rw [hdw] at hsplit
      refine ⟨s.takeWhile emailChar, m, w, ?_, htwne, hmne, hwne, ?_,
        hmchars, hwchars⟩
      · conv_lhs => rw [← hsplit]
        rw [htmw]
      · intro c hc
        exact List.mem_takeWhile_imp hc
  · rintro ⟨l, m, w, hs, hlne, hmne, hwne, hlchars, hmchars, hwchars⟩
    subst hs
    have hstop := takeWhile_append_stop emailChar l '@' (m ++ '.' :: w)
      hlchars (by decide)
    unfold emailCore
    rw [hstop.2, hstop.1]
    simp only [Bool.and_eq_true, Bool.not_eq_true',
      List.isEmpty_eq_false, beq_self_eq_true, and_true]
    exact ⟨hlne, (domCheck_iff (m ++ '.' :: w)).mpr
      ⟨m, w, rfl, hmne, hwne, hmchars, hwchars⟩⟩

lemma stripNl_cons (c : Char) (rest : Str) :
    stripNl (c :: rest) =
      if rest.isEmpty && (c == '\n') then [] else c :: stripNl rest := rfl

lemma stripNl_append_nl (s : Str) : stripNl (s ++ ['\n']) = s := by
  induction s with
  | nil => rfl
  | cons c cs ih =>
    rw [List.cons_append, stripNl_cons, ih]
    have hne : (cs ++ ['\n']).isEmpty = false := by
      cases cs <;> rfl
    rw [hne]
    rfl

lemma stripNl_no_nl (s : Str) (h : s.getLast? ≠ some '\n') : stripNl s = s := by
  induction s with
  | nil => rfl
  | cons c cs ih =>
    cases cs with
    | nil =>
      have hc : (c == '\n') = false := by
        rw [beq_eq_false_iff_ne]
        intro e
        exact h (by simp [e])
      rw [stripNl_cons, hc]
      rfl
    | cons d ds =>
      have h' : (d :: ds).getLast? ≠ some '\n' := by
        rw [← List.getLast?_cons_cons]
        exact h
      rw [stripNl_cons, ih h']
      rfl

lemma specEmailForm_no_nl {s : Str} (h : specEmailForm s) :
    s.getLast? ≠ some '\n' := by
  obtain ⟨l, m, w, hs, _, _, hwne, _, _, hwchars⟩ := h
  intro hlast
  have hw : s.getLast? = w.getLast? := by
    rw [hs]
    rw [List.getLast?_append_of_ne_nil _ (by simp)]
    show ((('@' :: m) ++ '.' :: w).getLast? = w.getLast?)
    rw [List.getLast?_append_of_ne_nil _ (by simp)]
    show ((['.'] ++ w).getLast? = w.getLast?)
    rw [List.getLast?_append_of_ne_nil _ hwne]
  rw [hw] at hlast
  have hmem : '\n' ∈ w := List.mem_of_mem_getLast? hlast
  have := hwchars '\n' hmem
  exact absurd this (by decide)

/-! ## Claim theorems -/

/-- C1: Routing is a pure, deterministic function of the query string:
a query is routed to Scheduling iff its lowercased text contains one of the
trigger substrings "call me", "contact me", "schedule", "appointment";
every other query (in particular any query lacking a trigger keyword) is
routed to DocumentQuestion.  The spec's two routing examples are included. -/
theorem C1_route_characterization :
    (∀ q : Str, route q = RouteDecision.Scheduling ↔
        (("call me").data <:+: lowerStr q ∨ ("contact me").data <:+: lowerStr q ∨
         ("schedule").data <:+: lowerStr q ∨ ("appointment").data <:+: lowerStr q)) ∧
    (∀ q : Str, route q = RouteDecision.Scheduling ∨
        route q = RouteDecision.DocumentQuestion) ∧
    (∀ q : Str, ¬ route q = RouteDecision.Scheduling ↔
        route q = RouteDecision.DocumentQuestion) ∧
    route (("please schedule a call for tomorrow").data) = RouteDecision.Scheduling ∧
    route (("what does section 2 say").data) = RouteDecision.DocumentQuestion := by
  refine ⟨?_, ?_, ?_, by decide, by decide⟩
  · intro q
    rw [← routesToScheduling_iff]
    unfold route
    cases h : routesToScheduling q <;> simp [h]
  · intro q
    unfold route
    cases h : routesToScheduling q <;> simp [h]
  · intro q
    unfold route
    cases h : routesToScheduling q <;> simp [h]

/-- C1 witness: the routing characterization applied at the spec's concrete
scheduling example. -/
theorem C1_route_characterization_witness :
    route (("please schedule a call for tomorrow").data)
      = RouteDecision.Scheduling :=
  C1_route_characterization.2.2.2.1

/-- C2: conversation history grows by exactly one (question, answer) turn per
successful document-question ask, in call order (after two successful asks
from an empty history it is exactly the two turns in order), and a failed ask
(generation failure) leaves the entire state — in particular the history —
unchanged: no partial turn is appended on failure. -/
theorem C2_history_per_ask
    (qa : RetrievalIndex → Str → List (Str × Str) → Except Unit Str)
    (validPhone : Str → Bool) (duParse : Str → Option CalDate)
    (inputs : List Str) (st : ChatbotState) (idx : RetrievalIndex)
    (q ans : Str)
    (hq : routesToScheduling q = false) (hc : st.qa_chain = some idx) :
    (qa idx q st.conversation_history = Except.ok ans →
      (process_query qa validPhone duParse inputs st q).2.conversation_history
          = st.conversation_history ++ [(q, ans)] ∧
      (process_query qa validPhone duParse inputs st q).2.conversation_history.length
          = st.conversation_history.length + 1) ∧
    (∀ e, qa idx q st.conversation_history = Except.error e →
      (process_query qa validPhone duParse inputs st q).2 = st) ∧
    (∀ q2 ans2 inputs2,
      st.conversation_history = [] →
      routesToScheduling q2 = false →
      qa idx q st.conversation_history = Except.ok ans →
      qa idx q2 [(q, ans)] = Except.ok ans2 →
      (process_query qa validPhone duParse inputs2
          (process_query qa validPhone duParse inputs st q).2 q2).2.conversation_history
        = [(q, ans), (q2, ans2)]) := by
  refine ⟨?_, ?_, ?_⟩
  · intro hok
    simp [process_query, hq, hc, hok]
  · intro e he
    simp [process_query, hq, hc, he]
  · intro q2 ans2 inputs2 h0 hq2 hok hok2
    rw [h0] at hok
    simp [process_query, hq, hc, hok, h0, hq2, hok2]

/-- C2 witness: two successful asks starting from the freshly loaded session
leave exactly the two turns, in call order. -/
theorem C2_history_per_ask_witness :
    (process_query wQa wValidPhone wDuParse []
        (process_query wQa wValidPhone wDuParse [] wLoaded
          (("first question").data)).2
        (("second question").data)).2.conversation_history
      = [((("first question").data), ("ans").data),
         ((("second question").data), ("ans").data)] :=
  (C2_history_per_ask wQa wValidPhone wDuParse [] wLoaded wIdx
      (("first question").data) (("ans").data) (by decide) rfl).2.2
      (("second question").data) (("ans").data) [] rfl (by decide) rfl rfl

/-- C5: a document question asked when no Retrieval Index exists (no document
loaded, `qa_chain` attribute missing) returns the fixed user-facing apology
string instead of failing hard, and leaves the state untouched; moreover
every single query failure — generation failure with an index, or a failed
intake — also returns a user-facing string with the state untouched, so the
session remains usable. -/
theorem C5_not_ready
    (qa : RetrievalIndex → Str → List (Str × Str) → Except Unit Str)
    (validPhone : Str → Bool) (duParse : Str → Option CalDate)
    (inputs : List Str) (st : ChatbotState) (q : Str)
    (hq : routesToScheduling q = false) (hc : st.qa_chain = none) :
    process_query qa validPhone duParse inputs st q = (apologyMsg, st) ∧
    (∀ idx e q2 (st2 : ChatbotState), routesToScheduling q2 = false →
        st2.qa_chain = some idx →
        qa idx q2 st2.conversation_history = Except.error e →
        process_query qa validPhone duParse inputs st2 q2 = (apologyMsg, st2)) ∧
    (∀ q3 inputs3 (st3 : ChatbotState), routesToScheduling q3 = true →
        collect_user_info validPhone duParse inputs3 = none →
        process_query qa validPhone duParse inputs3 st3 q3 = (schedErrMsg, st3)) := by
  refine ⟨by simp [process_query, hq, hc], ?_, ?_⟩
  · intro idx e q2 st2 hq2 hc2 he
    simp [process_query, hq2, hc2, he]
  · intro q3 inputs3 st3 hq3 hcoll
    simp [process_query, hq3, hcoll]

/-- C5 witness: asking a document question on a fresh session (nothing
loaded) yields the apology and the unchanged state. -/
theorem C5_not_ready_witness :
    process_query wQa wValidPhone wDuParse [] initState
        (("what is this document about").data) = (apologyMsg, initState) :=
  (C5_not_ready wQa wValidPhone wDuParse [] initState
      (("what is this document about").data) (by decide) rfl).1

/-- C10: a query whose lowercased text contains a trigger keyword is
dispatched to the intake flow: the response is a confirmation (intake
succeeded) or the intake error message, the history / vector store /
qa-chain fields are untouched, and the response is identical for every QA
oracle and every session state — in particular the Scheduling branch
behaves the same with no document loaded, while the document-question
branch without a prior successful load only yields the apology. -/
theorem C10_scheduling_bypass
    (qa qa2 : RetrievalIndex → Str → List (Str × Str) → Except Unit Str)
    (validPhone : Str → Bool) (duParse : Str → Option CalDate)
    (inputs : List Str) (st st2 : ChatbotState) (q : Str)
    (hq : routesToScheduling q = true) :
    ((process_query qa validPhone duParse inputs st q).2.conversation_history
        = st.conversation_history ∧
     (process_query qa validPhone duParse inputs st q).2.vectorstore
        = st.vectorstore ∧
     (process_query qa validPhone duParse inputs st q).2.qa_chain
        = st.qa_chain) ∧
    (process_query qa validPhone duParse inputs st q).1
        = (process_query qa2 validPhone duParse inputs st2 q).1 ∧
    (collect_user_info validPhone duParse inputs = none →
        (process_query qa validPhone duParse inputs st q).1 = schedErrMsg) ∧
    (∀ i, collect_user_info validPhone duParse inputs = some i →
        (process_query qa validPhone duParse inputs st q).1 = confirmMsg i) ∧
    (∀ q2, routesToScheduling q2 = false → st.qa_chain = none →
        process_query qa validPhone duParse inputs st q2 = (apologyMsg, st)) := by
  refine ⟨?_, ?_, ?_, ?_, ?_⟩
  · cases hcoll : collect_user_info validPhone duParse inputs <;>
      simp [process_query, hq, hcoll]
  · cases hcoll : collect_user_info validPhone duParse inputs <;>
      simp [process_query, hq, hcoll]
  · intro hcoll
    simp [process_query, hq, hcoll]
  · intro i hcoll
    simp [process_query, hq, hcoll]
  · intro q2 hq2 hc
    simp [process_query, hq2, hc]

/-- C10 witness: "please call me" triggers the intake flow even on a fresh
session with no document loaded; with no console input the intake fails and
the intake error message is returned. -/
theorem C10_scheduling_bypass_witness :
    (process_query wQa wValidPhone wDuParse [] initState
        (("please call me").data)).1 = schedErrMsg :=
  (C10_scheduling_bypass wQa wQaFail wValidPhone wDuParse [] initState wLoaded
      (("please call me").data) (by decide)).2.2.1 rfl

/-- C3: every successful document load installs a fresh index holding exactly
the chunks extracted from the newly loaded document, replacing the previous
one in both `vectorstore` and `qa_chain`; nothing from a prior document is
merged in (any chunk not extracted from the new document — e.g. one only the
first document contains — is absent from the new index), and the installed
index is exactly the one a fresh session would build for the same document. -/
theorem C3_fresh_isolated_index (fsExists : Str → Bool)
    (extract : Str → List Chunk) (buildOk : Bool) (now : Str)
    (st : ChatbotState) (pdf_path : Str) (st' : ChatbotState)
    (h : load_document fsExists extract buildOk now st pdf_path
          = LoadOutcome.ok st') :
    (st'.vectorstore = some (mkIndex (extract pdf_path) now) ∧
     st'.qa_chain = some (mkIndex (extract pdf_path) now)) ∧
    (∀ idx, st'.vectorstore = some idx → idx.chunks = extract pdf_path) ∧
    (∀ prev c, st.vectorstore = some prev → c ∈ prev.chunks →
        c ∉ extract pdf_path →
        ∀ idx, st'.vectorstore = some idx → c ∉ idx.chunks) ∧
    load_document fsExists extract buildOk now initState pdf_path
        = LoadOutcome.ok
            { initState with
                vectorstore := st'.vectorstore, qa_chain := st'.qa_chain } := by
  rw [load_document_ok_iff] at h
  obtain ⟨hfs, hex, hb, hst⟩ := h
  subst hst
  refine ⟨⟨rfl, rfl⟩, ?_, ?_, ?_⟩
  · intro idx hidx
    cases hidx
    rfl
  · intro prev c _ _ hnotin idx hidx
    cases hidx
    exact hnotin
  · rw [load_document_ok_iff]
    exact ⟨hfs, hex, hb, rfl⟩

/-- C3 witness: loading "b.pdf" over a session that already holds the index
of a first document succeeds, and the chunk of the first document is not in
the newly installed index. -/
theorem C3_fresh_isolated_index_witness :
    ({ text := ("doc one text").data, page := 0 : Chunk })
      ∉ (mkIndex (wExtract (("b.pdf").data)) (("t1").data)).chunks :=
  (C3_fresh_isolated_index wFs wExtract true (("t1").data) wLoaded
      (("b.pdf").data) wSt2 (by decide)).2.2.1 wIdx
      ({ text := ("doc one text").data, page := 0 }) rfl (by decide)
      (by decide) (mkIndex (wExtract (("b.pdf").data)) (("t1").data)) rfl

/-- C6 counterexample: with a path that resolves to no file, `load_document`
does not report the error and keep the process running — it prints the
`FileNotFoundError` and terminates the whole process via `sys.exit(1)`
(outcome `exited`, never a returning outcome). -/
theorem C6_counterexample :
    load_document (fun _ => false) wExtract true (("t1").data) initState
        (("missing.pdf").data) = LoadOutcome.exited 1 IngestError.notFound := by
  decide

/-- C6 (amended): a path that does not resolve to an existing file fails the
load with NotFound, zero extracted chunks fail it with EmptyDocument, and
any store/LLM construction failure fails it with IngestFailure; each
ingestion failure is reported (printed) — but it is fatal to the whole
process, which `load_document` terminates with exit code 1 instead of
returning to the caller; only a fully successful load returns. -/
theorem C6_ingest_failures_exit (fsExists : Str → Bool)
    (extract : Str → List Chunk) (buildOk : Bool) (now : Str)
    (st : ChatbotState) (pdf_path : Str) :
    (fsExists pdf_path = false →
      load_document fsExists extract buildOk now st pdf_path
        = LoadOutcome.exited 1 IngestError.notFound) ∧
    (fsExists pdf_path = true → extract pdf_path = [] →
      load_document fsExists extract buildOk now st pdf_path
        = LoadOutcome.exited 1 IngestError.emptyDocument) ∧
    (fsExists pdf_path = true → extract pdf_path ≠ [] → buildOk = false →
      load_document fsExists extract buildOk now st pdf_path
        = LoadOutcome.exited 1 IngestError.ingestFailure) ∧
    (∀ st', load_document fsExists extract buildOk now st pdf_path
        = LoadOutcome.ok st' →
      fsExists pdf_path = true ∧ extract pdf_path ≠ [] ∧ buildOk = true) := by
  refine ⟨?_, ?_, ?_, ?_⟩
  · intro hfs
    simp [load_document, hfs]
  · intro hfs hex
    simp [load_document, hfs, hex]
  · intro hfs hex hb
    cases hcase : extract pdf_path with
    | nil => exact absurd hcase hex
    | cons d ds => simp [load_document, hfs, hcase, hb]
  · intro st' h
    rw [load_document_ok_iff] at h
    exact ⟨h.1, h.2.1, h.2.2.1⟩

/-- C6 witness: the NotFound case of the amended claim at a concrete input. -/
theorem C6_ingest_failures_exit_witness :
    load_document (fun _ => false) (fun _ => []) false (("t1").data) wLoaded
        (("nowhere.pdf").data) = LoadOutcome.exited 1 IngestError.notFound :=
  (C6_ingest_failures_exit (fun _ => false) (fun _ => []) false
      (("t1").data) wLoaded (("nowhere.pdf").data)).1 rfl

/-- C7: whenever text extraction + splitting yields zero chunks, the load
fails with the EmptyDocument error (`ValueError("No text content extracted
from PDF")`): no index is built and no success is reported — the outcome is
never a returning one. -/
theorem C7_empty_document (fsExists : Str → Bool)
    (extract : Str → List Chunk) (buildOk : Bool) (now : Str)
    (st : ChatbotState) (pdf_path : Str)
    (hfs : fsExists pdf_path = true) (hex : extract pdf_path = []) :
    load_document fsExists extract buildOk now st pdf_path
        = LoadOutcome.exited 1 IngestError.emptyDocument ∧
    ∀ st', load_document fsExists extract buildOk now st pdf_path
        ≠ LoadOutcome.ok st' := by
  constructor
  · simp [load_document, hfs, hex]
  · intro st' h
    rw [load_document_ok_iff] at h
    exact h.2.1 hex

/-- C7 witness: a scanned image-only PDF (no extractable text) at a concrete
input fails with EmptyDocument. -/
theorem C7_empty_document_witness :
    load_document wFs (fun _ => []) true (("t1").data) initState
        (("scan.pdf").data) = LoadOutcome.exited 1 IngestError.emptyDocument :=
  (C7_empty_document wFs (fun _ => []) true (("t1").data) initState
      (("scan.pdf").data) rfl rfl).1

/-- C4: the intake flow collects name, then email, then phone, then date, in
that fixed order, retrying each collection state on every invalid input
(arbitrarily many rejected lines are skipped before the first valid one);
any record it returns is complete, with email, phone and date having passed
their validators — otherwise it returns no record at all (`none`), never a
partial one. -/
theorem C4_intake_order_and_validation (validPhone : Str → Bool)
    (duParse : Str → Option CalDate) :
    (∀ inputs r, collect_user_info validPhone duParse inputs = some r →
        validate_email r.email = true ∧ validPhone r.phone = true ∧
        ∃ ds, parse_date duParse ds = some r.appointment_date) ∧
    (∀ (name email phone ds : Str) (ebad pbad dbad rest : List Str)
        (d : CalDate),
        (∀ x ∈ ebad, validate_email x = false) → validate_email email = true →
        (∀ x ∈ pbad, validPhone x = false) → validPhone phone = true →
        (∀ x ∈ dbad, duParse x = none) → duParse ds = some d →
        collect_user_info validPhone duParse
            (name :: (ebad ++ email :: (pbad ++ phone :: (dbad ++ ds :: rest))))
          = some { name := name, email := email, phone := phone,
                   appointment_date := formatYMD d }) := by
  constructor
  · intro inputs r h
    cases inputs with
    | nil => simp [collect_user_info] at h
    | cons name r1 =>
      cases hE : askUntil validate_email r1 with
      | none => simp [collect_user_info, hE] at h
      | some pr2 =>
        obtain ⟨email, r2⟩ := pr2
        cases hP : askUntil validPhone r2 with
        | none => simp [collect_user_info, hE, hP] at h
        | some pr3 =>
          obtain ⟨phone, r3⟩ := pr3
          cases hD : askUntilSome (parse_date duParse) r3 with
          | none => simp [collect_user_info, hE, hP, hD] at h
          | some pr4 =>
            obtain ⟨date, r4⟩ := pr4
            simp [collect_user_info, hE, hP, hD] at h
            rw [← h]
            exact ⟨askUntil_valid validate_email r1 email r2 hE,
                   askUntil_valid validPhone r2 phone r3 hP,
                   askUntilSome_parsed (parse_date duParse) r3 date r4 hD⟩
  · intro name email phone ds ebad pbad dbad rest d hbe he hbp hp hbd hd
    have hE : askUntil validate_email
        (ebad ++ email :: (pbad ++ phone :: (dbad ++ ds :: rest)))
          = some (email, pbad ++ phone :: (dbad ++ ds :: rest)) :=
      askUntil_skip validate_email ebad email _ hbe he
    have hP : askUntil validPhone (pbad ++ phone :: (dbad ++ ds :: rest))
          = some (phone, dbad ++ ds :: rest) :=
      askUntil_skip validPhone pbad phone _ hbp hp
    have hD : askUntilSome (parse_date duParse) (dbad ++ ds :: rest)
          = some (formatYMD d, rest) := by
      refine askUntilSome_skip (parse_date duParse) dbad ds (formatYMD d) rest
        (fun x hx => ?_) (by simp [parse_date, hd])
      simp [parse_date, hbd x hx]
    simp [collect_user_info, hE, hP, hD]

/-- C4 witness: a console session with one invalid line at each of the
email, phone and date states produces the complete validated record. -/
theorem C4_intake_order_and_validation_witness :
    collect_user_info wValidPhone wDuParse
        [("Alice").data, ("nope").data, ("a@b.com").data, ("x").data,
         ("123").data, ("blah").data, ("March 3 2025").data]
      = some { name := ("Alice").data, email := ("a@b.com").data,
               phone := ("123").data,
               appointment_date := ("2025-03-03").data } := by
  have h := (C4_intake_order_and_validation wValidPhone wDuParse).2
      (("Alice").data) (("a@b.com").data) (("123").data)
      (("March 3 2025").data) [("nope").data] [("x").data] [("blah").data] []
      ({ year := 2025, month := 3, day := 3 })
      (by decide) (by decide) (by decide) (by decide) (by decide) (by decide)
  exact h

/-- C8: `parse_date` accepts a string iff the fuzzy natural-language parser
(`dateutil`, the oracle `duParse`) extracts a calendar date from it —
rejection returns `none` instead of raising — and on acceptance it returns
exactly that date rendered as a literal `YYYY-MM-DD` string. -/
theorem C8_parse_date_normalizes (duParse : Str → Option CalDate) (s : Str) :
    (parse_date duParse s = none ↔ duParse s = none) ∧
    (∀ d, duParse s = some d → parse_date duParse s = some (formatYMD d)) ∧
    (∀ d : CalDate, isYYYYMMDD (formatYMD d) = true) := by
  refine ⟨?_, ?_, ?_⟩
  · unfold parse_date
    cases h : duParse s <;> simp
  · intro d h
    simp [parse_date, h]
  · intro d
    simp [formatYMD, pad4, pad2, isYYYYMMDD, digitChar_mod10_isDigit]

/-- C8 witness: the oracle accepting "March 3 2025" as 2025-03-03 makes
`parse_date` return the literal normalized string. -/
theorem C8_parse_date_normalizes_witness :
    parse_date wDuParse (("March 3 2025").data)
      = some (("2025-03-03").data) := by
  have h := (C8_parse_date_normalizes wDuParse (("March 3 2025").data)).2.1
      ({ year := 2025, month := 3, day := 3 }) (by decide)
  exact h

/-- C9 counterexample: the validator does not accept *exactly* the strings
of the form `local-part@domain.tld`: Python's `$` also matches just before a
single trailing newline, so "a.b-c@sub.domain.com\n" is accepted by
the pattern `^[\w\.-]+@[\w\.-]+\.\w+$` although it is not of the
claimed form (it ends in a newline, which is not a word char, dot or
hyphen). -/
theorem C9_counterexample :
    validate_email cexEmail = true ∧ ¬ specEmailForm cexEmail := by
  constructor
  · decide
  · intro h
    exact specEmailForm_no_nl h (by decide)

/-- C9 (amended): the email validator accepts exactly the strings of the
form `local-part@domain.tld` — word characters, dots and hyphens on both
sides of the `@` (both nonempty), the domain ending in a dot followed by a
nonempty run of word characters — *optionally followed by one trailing
newline* (Python `re` semantics of `$`).  In particular
"a.b-c@sub.domain.com" is accepted and "not-an-email" is rejected. -/
theorem C9_email_regex_language :
    (∀ s : Str, validate_email s = true ↔
        (specEmailForm s ∨ ∃ s' : Str, s = s' ++ ['\n'] ∧ specEmailForm s')) ∧
    validate_email (("a.b-c@sub.domain.com").data) = true ∧
    validate_email (("not-an-email").data) = false := by
  refine ⟨?_, by decide, by decide⟩
  intro s
  by_cases hnl : s.getLast? = some '\n'
  · have hs : s.dropLast ++ ['\n'] = s := List.dropLast_append_getLast? _ hnl
    constructor
    · intro h
      unfold validate_email at h
      rw [← hs, stripNl_append_nl] at h
      exact Or.inr ⟨s.dropLast, hs.symm, (emailCore_iff _).mp h⟩
    · rintro (hform | ⟨s', hs', hform⟩)
      · exact absurd hnl (specEmailForm_no_nl hform)
      · unfold validate_email
        rw [hs', stripNl_append_nl]
        exact (emailCore_iff _).mpr hform
  · rw [validate_email, stripNl_no_nl s hnl, emailCore_iff]
    constructor
    · exact Or.inl
    · rintro (hform | ⟨s', hs', _⟩)
      · exact hform
      · exact absurd (hs' ▸ (by simp : (s' ++ ['\n']).getLast? = some '\n')) hnl

/-- C9 witness: the amended language theorem applied at the spec's concrete
accepted example. -/
theorem C9_email_regex_language_witness :
    validate_email (("a.b-c@sub.domain.com").data) = true :=
  C9_email_regex_language.2.1

end DocChatbot
